import Mathlib

/-!
Shallow embedding of the COMP-4730-Project-2 facial-emotion training
harness (`main.py` and the auxiliary module `model_builder.py`), together
with proofs about its behaviour.

Conventions used throughout:
* Python exceptions are modelled with `Except PyErr`; a bare `except:`
  clause becomes a `match` on the `Except` value.
* Real-valued quantities (accuracies, scaling factors, rotations) are
  modelled with `ℚ`.
* Framework objects (layer stacks, tensors, optimizers) are opaque to the
  script, so they are modelled by abstract constructors or type
  parameters; the script-level control flow around them is embedded
  faithfully.
-/

/-- Python exceptions that the embedded code can raise. -/
inductive PyErr where
  | typeError (msg : String)
  | valueError (msg : String)
  | zeroDivisionError
  | indexError
deriving DecidableEq

/-- ASCII lower-casing of one character, as Python `str.lower` acts on ASCII. -/
def charLower (c : Char) : Char :=
  if 'A' ≤ c ∧ c ≤ 'Z' then Char.ofNat (c.toNat + 32) else c

/-- ASCII lower-casing of a string, modelling Python `str.lower` (every name the
program compares against is ASCII). -/
def strLower (s : String) : String :=
  String.mk (s.data.map charLower)

/-- Network architectures built by `model_builder.py`: `simple_network`
(lines 41-67), `expanded_network` (lines 70-106) and `resnet_network`
(lines 109-144). The layer stacks themselves are framework objects, so each is
represented by its constructor alone. -/
inductive Arch where
  | simple
  | expanded
  | resnet
deriving DecidableEq

/-- Embeds `model_builder.define_layers` (model_builder.py lines 5-21):
lower-case the requested name, return the matching network for `simple`,
`expanded` or `resnet`, and raise `ValueError` for anything else. -/
def define_layers (name : String) : Except PyErr Arch :=
  let name := strLower name
  if name = "simple" then .ok .simple
  else if name = "expanded" then .ok .expanded
  else if name = "resnet" then .ok .resnet
  else .error (.valueError ("Model architecture \"" ++ name ++
    "\" does not exist, options are \"simple\", \"expanded\", or \"resnet\"."))

/-- Embeds a Python call to `define_layers` with an optional positional
argument: `define_layers` declares one required parameter `name`
(model_builder.py line 5), so a call that passes no argument raises
`TypeError` before the body runs. -/
def define_layers_call (arg : Option String) : Except PyErr Arch :=
  match arg with
  | some name => define_layers name
  | none => .error (.typeError "define_layers missing 1 required positional argument: name")

/-- Embeds how `NeuralNetwork.__init__` obtains its layer stack
(main.py line 90): the source calls `model_builder.define_layers()` passing
no argument at all. -/
def NeuralNetwork_init_layers : Except PyErr Arch :=
  define_layers_call none

/-- C3: constructing the training network does not succeed. `main.py` line 90
calls `model_builder.define_layers()` without the required `name` argument, so
`NeuralNetwork()` raises `TypeError` instead of obtaining a layer stack for one
of the available architectures. -/
theorem neuralNetwork_init_layers_typeError :
    NeuralNetwork_init_layers =
      .error (.typeError "define_layers missing 1 required positional argument: name") := rfl

/-- C4: `define_layers` returns a network for exactly the three architecture
names, compared case-insensitively — `simple`, `expanded` and `resnet` — and
raises `ValueError` for every other name. -/
theorem define_layers_three_architectures (name : String) :
    (strLower name = "simple" → define_layers name = .ok .simple) ∧
    (strLower name = "expanded" → define_layers name = .ok .expanded) ∧
    (strLower name = "resnet" → define_layers name = .ok .resnet) ∧
    (strLower name ≠ "simple" → strLower name ≠ "expanded" → strLower name ≠ "resnet" →
      ∃ msg, define_layers name = .error (.valueError msg)) := by
  unfold define_layers
  refine ⟨fun h => by simp [h], fun h => ?_, fun h => ?_, fun h1 h2 h3 => ?_⟩
  · rcases eq_or_ne (strLower name) "simple" with h' | h' <;> simp_all
  · rcases eq_or_ne (strLower name) "simple" with h' | h' <;> simp_all
  · simp [h1, h2, h3]

/-- Concrete check of C4: each architecture name is accepted regardless of
case, and an unknown name is rejected with `ValueError`. -/
theorem define_layers_three_architectures_witness :
    define_layers "SiMpLe" = .ok .simple ∧
    define_layers "EXPANDED" = .ok .expanded ∧
    define_layers "resnet" = .ok .resnet ∧
    ∃ msg, define_layers "vgg" = .error (.valueError msg) :=
  ⟨(define_layers_three_architectures "SiMpLe").1 (by decide),
   (define_layers_three_architectures "EXPANDED").2.1 (by decide),
   (define_layers_three_architectures "resnet").2.2.1 (by decide),
   (define_layers_three_architectures "vgg").2.2.2 (by decide) (by decide) (by decide)⟩

/-- Fuel-driven splitting of a list into consecutive chunks of `n` elements
(the last chunk may be shorter). Structural recursion on `fuel` keeps the
definition kernel-computable; `fuel` only needs to be at least the list
length. -/
def chunkGo {α : Type*} (n : ℕ) : ℕ → List α → List (List α)
  | 0, _ => []
  | _, [] => []
  | fuel + 1, l => l.take n :: chunkGo n fuel (l.drop n)

/-- Splits a dataset into the batches a PyTorch `DataLoader` with
`batch_size = n` and the default `drop_last = False` yields: consecutive
chunks of `n` examples, the last one possibly smaller. -/
def chunkList {α : Type*} (n : ℕ) (l : List α) : List (List α) :=
  if n = 0 then [] else chunkGo n l.length l

lemma chunkGo_flatten {α : Type*} (n : ℕ) (hn : 0 < n) (fuel : ℕ) :
    ∀ l : List α, l.length ≤ fuel → (chunkGo n fuel l).flatten = l := by
  induction fuel with
  | zero =>
    intro l h
    have hl : l = [] := List.length_eq_zero.mp (Nat.le_zero.mp h)
    subst hl; rfl
  | succ fuel ih =>
    intro l h
    cases l with
    | nil => rfl
    | cons x xs =>
      have hlen : ((x :: xs).drop n).length ≤ fuel := by
        rw [List.length_drop]
        have : (x :: xs).length ≤ fuel + 1 := h
        omega
      show ((x :: xs).take n :: chunkGo n fuel ((x :: xs).drop n)).flatten = x :: xs
      rw [List.flatten_cons, ih _ hlen, List.take_append_drop]

lemma chunkGo_length_mul {α : Type*} (n : ℕ) (hn : 0 < n) (fuel : ℕ) :
    ∀ l : List α, l.length ≤ fuel → n ∣ l.length →
      (chunkGo n fuel l).length * n = l.length := by
  induction fuel with
  | zero =>
    intro l h _
    have hl : l = [] := List.length_eq_zero.mp (Nat.le_zero.mp h)
    subst hl; simp [chunkGo]
  | succ fuel ih =>
    intro l h hdvd
    cases l with
    | nil => simp [chunkGo]
    | cons x xs =>
      have hpos : 0 < (x :: xs).length := by simp
      have hle : n ≤ (x :: xs).length := Nat.le_of_dvd hpos hdvd
      have hdvd' : n ∣ ((x :: xs).drop n).length := by
        rw [List.length_drop]
        exact Nat.dvd_sub' hdvd dvd_rfl
      have hlen : ((x :: xs).drop n).length ≤ fuel := by
        rw [List.length_drop]
        have : (x :: xs).length ≤ fuel + 1 := h
        omega
      show ((x :: xs).take n :: chunkGo n fuel ((x :: xs).drop n)).length * n
        = (x :: xs).length
      have hrec := ih _ hlen hdvd'
      rw [List.length_drop] at hrec
      simp only [List.length_cons]
      calc (chunkGo n fuel ((x :: xs).drop n)).length.succ * n
          = (chunkGo n fuel ((x :: xs).drop n)).length * n + n := Nat.succ_mul _ _
        _ = ((x :: xs).length - n) + n := by rw [hrec]
        _ = (x :: xs).length := Nat.sub_add_cancel hle
        _ = xs.length + 1 := by simp

lemma chunkGo_mem_length {α : Type*} (n : ℕ) (hn : 0 < n) (fuel : ℕ) :
    ∀ l : List α, l.length ≤ fuel → n ∣ l.length →
      ∀ c ∈ chunkGo n fuel l, c.length = n := by
  induction fuel with
  | zero =>
    intro l h _ c hc
    have hl : l = [] := List.length_eq_zero.mp (Nat.le_zero.mp h)
    subst hl; simp [chunkGo] at hc
  | succ fuel ih =>
    intro l h hdvd c hc
    cases l with
    | nil => simp [chunkGo] at hc
    | cons x xs =>
      have hpos : 0 < (x :: xs).length := by simp
      have hle : n ≤ (x :: xs).length := Nat.le_of_dvd hpos hdvd
      have hdvd' : n ∣ ((x :: xs).drop n).length := by
        rw [List.length_drop]
        exact Nat.dvd_sub' hdvd dvd_rfl
      have hlen : ((x :: xs).drop n).length ≤ fuel := by
        rw [List.length_drop]
        have : (x :: xs).length ≤ fuel + 1 := h
        omega
      have hc' : c ∈ (x :: xs).take n :: chunkGo n fuel ((x :: xs).drop n) := hc
      rcases List.mem_cons.mp hc' with h1 | h2
      · subst h1
        rw [List.length_take n _]
        exact Nat.min_eq_left hle
      · exact ih _ hlen hdvd' c h2

lemma chunkList_flatten {α : Type*} {n : ℕ} (hn : 0 < n) (l : List α) :
    (chunkList n l).flatten = l := by
  unfold chunkList
  rw [if_neg (Nat.pos_iff_ne_zero.mp hn)]
  exact chunkGo_flatten n hn l.length l le_rfl

lemma chunkList_length_mul {α : Type*} {n : ℕ} (hn : 0 < n) (l : List α)
    (hdvd : n ∣ l.length) : (chunkList n l).length * n = l.length := by
  unfold chunkList
  rw [if_neg (Nat.pos_iff_ne_zero.mp hn)]
  exact chunkGo_length_mul n hn l.length l le_rfl hdvd

lemma chunkList_mem_length {α : Type*} {n : ℕ} (hn : 0 < n) (l : List α)
    (hdvd : n ∣ l.length) : ∀ c ∈ chunkList n l, c.length = n := by
  unfold chunkList
  rw [if_neg (Nat.pos_iff_ne_zero.mp hn)]
  exact chunkGo_mem_length n hn l.length l le_rfl hdvd

/-- Embeds the per-batch correctness count inside `test` (main.py line 193):
`(label == model.predict(image)).sum()` counts the positions of the batch
where the prediction equals the label. The model is abstracted by its
prediction function `predict` on images. -/
def batchCorrect {α : Type*} (predict : α → ℤ) (b : List (α × ℤ)) : ℕ :=
  b.countP (fun p => predict p.1 == p.2)

/-- Embeds `test` (main.py lines 179-195): sum the correct predictions over
all batches of the dataloader and return
`correct / (len(dataloader) * batch) * 100`. -/
def test {α : Type*} (predict : α → ℤ) (batch : ℕ)
    (dataloader : List (List (α × ℤ))) : ℚ :=
  ((dataloader.map (batchCorrect predict)).sum : ℚ) /
    ((dataloader.length * batch : ℕ) : ℚ) * 100

/-- Counterexample to C2: on a test set of 3 examples with batch size 2 and a
model that predicts every example correctly, `test` returns
`3 / (2 * 2) * 100 = 75`, not the fraction of correct test examples
`3 / 3 * 100 = 100`: the denominator is `len(dataloader) * batch`, which
overcounts when the batch size does not divide the dataset size. -/
theorem test_accuracy_counterexample :
    test (fun x : ℤ => x) 2 (chunkList 2 [((0 : ℤ), (0 : ℤ)), (1, 1), (2, 2)]) ≠
      ((batchCorrect (fun x : ℤ => x) [((0 : ℤ), (0 : ℤ)), (1, 1), (2, 2)] : ℕ) : ℚ) /
        ((([((0 : ℤ), (0 : ℤ)), (1, 1), (2, 2)] : List (ℤ × ℤ)).length : ℕ) : ℚ) * 100 := by
  have h1 : chunkList 2 [((0 : ℤ), (0 : ℤ)), (1, 1), (2, 2)]
      = [[((0 : ℤ), (0 : ℤ)), (1, 1)], [(2, 2)]] := rfl
  have h2 : batchCorrect (fun x : ℤ => x) [((0 : ℤ), (0 : ℤ)), (1, 1), (2, 2)] = 3 := rfl
  have h3 : ([[((0 : ℤ), (0 : ℤ)), (1, 1)], [(2, 2)]] : List (List (ℤ × ℤ))).map
      (batchCorrect (fun x : ℤ => x)) = [2, 1] := rfl
  unfold test
  simp only [h1, h2, h3, List.sum_cons, List.sum_nil, List.length_cons, List.length_nil]
  norm_num

/-- C2 (amended): `test` computes `correct / (len(dataloader) * batch) * 100`;
when the dataloader is the test dataset split into batches of size `batch`,
this equals the percentage of correctly predicted test examples exactly when
`batch` divides the dataset size. -/
theorem test_accuracy_batched {α : Type*} (predict : α → ℤ) (batch : ℕ)
    (ds : List (α × ℤ)) (hb : 0 < batch) (hdvd : batch ∣ ds.length)
    (_hne : ds ≠ []) :
    test predict batch (chunkList batch ds) =
      ((batchCorrect predict ds : ℕ) : ℚ) / ((ds.length : ℕ) : ℚ) * 100 := by
  have hflat : (chunkList batch ds).flatten = ds := chunkList_flatten hb ds
  have hnum : ((chunkList batch ds).map (batchCorrect predict)).sum
      = batchCorrect predict ds := by
    unfold batchCorrect
    rw [← List.countP_flatten, hflat]
  have hden : (chunkList batch ds).length * batch = ds.length :=
    chunkList_length_mul hb ds hdvd
  unfold test
  rw [hnum, hden]

/-- Concrete check of the amended C2: with 2 examples, batch size 2 and a
perfect model, `test` returns 100, the true fraction of correct examples. -/
theorem test_accuracy_batched_witness :
    test (fun x : ℤ => x) 2 (chunkList 2 [((0 : ℤ), (0 : ℤ)), (1, 1)]) =
      ((batchCorrect (fun x : ℤ => x) [((0 : ℤ), (0 : ℤ)), (1, 1)] : ℕ) : ℚ) /
        ((([((0 : ℤ), (0 : ℤ)), (1, 1)] : List (ℤ × ℤ)).length : ℕ) : ℚ) * 100 :=
  test_accuracy_batched _ 2 _ (by decide) (by decide) (by decide)

/-- Augmentation transforms the script can attach to the training dataset
(main.py lines 44-61): `transforms.RandomResizedCrop(48, (mini, maxi))` and
`transforms.RandomRotation(rot)`. -/
inductive Aug where
  | randomResizedCrop (mini maxi : ℚ)
  | randomRotation (rot : ℚ)
deriving DecidableEq

/-- Embeds the transform selection of `FaceDataset.__init__`
(main.py lines 39-61): no transform when `mini == 1 and maxi == 1 and
rot == 0`, otherwise only the transforms actually required, composed in
source order. -/
def FaceDataset_transform (mini maxi rot : ℚ) : Option (List Aug) :=
  if mini = 1 ∧ maxi = 1 ∧ rot = 0 then none
  else if mini = 1 ∧ maxi = 1 then some [.randomRotation rot]
  else if rot = 0 then some [.randomResizedCrop mini maxi]
  else some [.randomResizedCrop mini maxi, .randomRotation rot]

/-- Embeds a `FaceDataset` (main.py lines 20-76). `Img` abstracts the stored
image tensors: the axis rearrangement of lines 34-37 happens before storage,
so `images` holds the stored (already rearranged) tensors. -/
structure FaceDataset (Img : Type) where
  images : List Img
  labels : List ℤ
  transform : Option (List Aug)

/-- Embeds `FaceDataset.__init__` (main.py lines 25-61). -/
def FaceDataset_init {Img : Type} (images : List Img) (labels : List ℤ)
    (mini maxi rot : ℚ) : FaceDataset Img :=
  ⟨images, labels, FaceDataset_transform mini maxi rot⟩

/-- Applies a stored transform pipeline to an image, where `apply` gives the
effect of one torchvision transform on one image; a missing pipeline leaves
the image untouched. -/
def applyTransform {Img : Type} (apply : Aug → Img → Img) :
    Option (List Aug) → Img → Img
  | none, img => img
  | some ts, img => ts.foldl (fun i t => apply t i) img

/-- Embeds `FaceDataset.__getitem__` (main.py lines 70-76): the image at
`idx` with the stored transform applied (if any), paired with the label at
`idx`; an out-of-range index gives `none` where Python would raise
`IndexError`. -/
def FaceDataset_getitem {Img : Type} (d : FaceDataset Img)
    (apply : Aug → Img → Img) (idx : ℕ) : Option (Img × ℤ) := do
  let img ← d.images.get? idx
  let lab ← d.labels.get? idx
  return (applyTransform apply d.transform img, lab)

/-- C5: augmentation is off by default. With `mini = 1`, `maxi = 1` and
`rot = 0` a `FaceDataset` stores no transform and `__getitem__` returns the
stored image at the index unchanged, paired with its label; a transform is
stored exactly when the rescaling range differs from `(1, 1)` or the rotation
is nonzero. -/
theorem faceDataset_default_no_augmentation {Img : Type} (images : List Img)
    (labels : List ℤ) (apply : Aug → Img → Img) :
    (FaceDataset_init images labels 1 1 0).transform = none ∧
    (∀ idx img lab, images.get? idx = some img → labels.get? idx = some lab →
      FaceDataset_getitem (FaceDataset_init images labels 1 1 0) apply idx
        = some (img, lab)) ∧
    (∀ mini maxi rot : ℚ,
      (FaceDataset_init images labels mini maxi rot).transform = none ↔
        (mini = 1 ∧ maxi = 1 ∧ rot = 0)) := by
  refine ⟨rfl, ?_, ?_⟩
  · intro idx img lab h1 h2
    rw [List.get?_eq_getElem?] at h1 h2
    simp [FaceDataset_getitem, FaceDataset_init, FaceDataset_transform,
      applyTransform, h1, h2]
  · intro mini maxi rot
    unfold FaceDataset_init FaceDataset_transform
    constructor
    · intro h
      by_cases hc1 : mini = 1 ∧ maxi = 1 ∧ rot = 0
      · exact hc1
      · exfalso
        rw [if_neg hc1] at h
        by_cases hc2 : mini = 1 ∧ maxi = 1
        · rw [if_pos hc2] at h; simp at h
        · rw [if_neg hc2] at h
          by_cases hc3 : rot = 0
          · rw [if_pos hc3] at h; simp at h
          · rw [if_neg hc3] at h; simp at h
    · intro h
      simp [h]

/-- Concrete check of C5 on a one-element dataset. -/
theorem faceDataset_default_no_augmentation_witness :
    (FaceDataset_init [(5 : ℕ)] [(3 : ℤ)] 1 1 0).transform = none ∧
    FaceDataset_getitem (FaceDataset_init [(5 : ℕ)] [(3 : ℤ)] 1 1 0)
      (fun _ i => i) 0 = some (5, 3) :=
  ⟨(faceDataset_default_no_augmentation [(5 : ℕ)] [(3 : ℤ)] (fun _ i => i)).1,
   (faceDataset_default_no_augmentation [(5 : ℕ)] [(3 : ℤ)] (fun _ i => i)).2.1
     0 5 3 rfl rfl⟩

/-- Normalises a Python list index: a nonnegative index must be below the
list length, a negative index counts from the end, anything else is an
`IndexError` (Python list-index semantics). -/
def pyIndex (len : ℕ) (i : ℤ) : Option ℕ :=
  if 0 ≤ i ∧ i < (len : ℤ) then some i.toNat
  else if -(len : ℤ) ≤ i ∧ i < 0 then some (i + len).toNat
  else none

/-- Embeds `counts[label] += 1` (main.py line 155) with Python list-index
semantics. -/
def bumpCount (counts : List ℕ) (label : ℤ) : Option (List ℕ) :=
  match pyIndex counts.length label with
  | some i => some (counts.set i (counts.getD i 0 + 1))
  | none => none

/-- Embeds the counting loop of `dataset_details` (main.py lines 153-155). -/
def countLabels : List ℤ → List ℕ → Option (List ℕ)
  | [], counts => some counts
  | l :: ls, counts =>
    match bumpCount counts l with
    | some counts => countLabels ls counts
    | none => none

/-- Embeds `dataset_details` (main.py lines 146-165): count each label into
seven buckets starting from `[0, 0, 0, 0, 0, 0, 0]` (line 153), total them,
print per-class percentages — each divides by the total, so a zero total
raises `ZeroDivisionError` — and return the total. -/
def dataset_details (labels : List ℤ) : Except PyErr ℕ :=
  match countLabels labels [0, 0, 0, 0, 0, 0, 0] with
  | none => .error .indexError
  | some counts =>
    let total := counts.sum
    if total = 0 then .error .zeroDivisionError
    else .ok total

lemma sum_set_getD_add_one : ∀ (l : List ℕ) (i : ℕ), i < l.length →
    (l.set i (l.getD i 0 + 1)).sum = l.sum + 1 := by
  intro l
  induction l with
  | nil => intro i h; simp at h
  | cons x xs ih =>
    intro i h
    cases i with
    | zero => simp [List.sum_cons]; omega
    | succ i =>
      have h' : i < xs.length := by simpa using h
      simp only [List.set_cons_succ, List.getD_cons_succ, List.sum_cons, ih i h']
      omega

lemma countLabels_spec : ∀ (ls : List ℤ) (counts : List ℕ),
    counts.length = 7 → (∀ l ∈ ls, 0 ≤ l ∧ l ≤ 6) →
    ∃ counts', countLabels ls counts = some counts' ∧
      counts'.length = 7 ∧ counts'.sum = counts.sum + ls.length := by
  intro ls
  induction ls with
  | nil => intro counts hlen _; exact ⟨counts, rfl, hlen, by simp⟩
  | cons l ls ih =>
    intro counts hlen hrange
    obtain ⟨hl0, hl6⟩ := hrange l (List.mem_cons_self l ls)
    have hidx : pyIndex counts.length l = some l.toNat := by
      unfold pyIndex
      rw [if_pos ⟨hl0, by rw [hlen]; omega⟩]
    have hlt : l.toNat < counts.length := by rw [hlen]; omega
    have hbump : bumpCount counts l
        = some (counts.set l.toNat (counts.getD l.toNat 0 + 1)) := by
      unfold bumpCount
      rw [hidx]
    have hlen' : (counts.set l.toNat (counts.getD l.toNat 0 + 1)).length = 7 := by
      rw [List.length_set]; exact hlen
    have hsum' : (counts.set l.toNat (counts.getD l.toNat 0 + 1)).sum
        = counts.sum + 1 := sum_set_getD_add_one counts l.toNat hlt
    obtain ⟨counts', hc, hclen, hcsum⟩ :=
      ih _ hlen' (fun x hx => hrange x (List.mem_cons_of_mem l hx))
    refine ⟨counts', ?_, hclen, ?_⟩
    · show countLabels (l :: ls) counts = some counts'
      unfold countLabels
      rw [hbump]
      exact hc
    · rw [hcsum, hsum']
      simp [List.length_cons]
      omega

/-- Counterexample to C7: on the empty label list `dataset_details` does not
return a total at all — the percentage report divides each bucket count by
the total `0`, raising `ZeroDivisionError`. -/
theorem dataset_details_empty_raises :
    dataset_details [] = .error .zeroDivisionError := rfl

/-- C7 (amended): for every non-empty list of labels in the range 0 to 6,
`dataset_details` counts each label into its class bucket with every list
index in bounds, and returns the total, which equals the sum of the seven
per-class counts and the length of the label list. -/
theorem dataset_details_counts (labels : List ℤ) (hne : labels ≠ [])
    (hrange : ∀ l ∈ labels, 0 ≤ l ∧ l ≤ 6) :
    ∃ counts, countLabels labels [0, 0, 0, 0, 0, 0, 0] = some counts ∧
      counts.length = 7 ∧ counts.sum = labels.length ∧
      dataset_details labels = .ok labels.length := by
  obtain ⟨counts, hc, hclen, hcsum⟩ :=
    countLabels_spec labels [0, 0, 0, 0, 0, 0, 0] rfl hrange
  have hsum : counts.sum = labels.length := by simpa using hcsum
  have hne' : labels.length ≠ 0 := fun h => hne (List.length_eq_zero.mp h)
  refine ⟨counts, hc, hclen, hsum, ?_⟩
  unfold dataset_details
  rw [hc]
  simp [hsum, hne']

/-- Concrete check of the amended C7 on a one-label dataset. -/
theorem dataset_details_counts_witness :
    ∃ counts, countLabels [(0 : ℤ)] [0, 0, 0, 0, 0, 0, 0] = some counts ∧
      counts.length = 7 ∧ counts.sum = ([(0 : ℤ)]).length ∧
      dataset_details [(0 : ℤ)] = .ok ([(0 : ℤ)]).length :=
  dataset_details_counts [(0 : ℤ)] (by decide) (by decide)

/-- Embeds Python `range(0, n)` for an integer bound: the iteration indices
`0, 1, ..., n - 1`, empty when `n ≤ 0`. -/
def pyRange (n : ℤ) : List ℤ :=
  (List.range n.toNat).map Int.ofNat

/-- Embeds the attempt-count adjustment of main.py lines 266-267:
`if load or att < 1: att = 1`. -/
def adjusted_attempts (load : Bool) (att : ℤ) : ℤ :=
  if load ∨ att < 1 then 1 else att

/-- Iteration indices of the training-attempt loop
`for attempt in range(0, att)` (main.py line 268) after the adjustment. -/
def attempt_indices (load : Bool) (att : ℤ) : List ℤ :=
  pyRange (adjusted_attempts load att)

/-- C8: the training-attempt loop runs exactly once when `load` is true or the
requested attempt count is below 1, and otherwise exactly the requested number
of times. -/
theorem attempt_loop_count (load : Bool) (att : ℤ) :
    ((load = true ∨ att < 1) → (attempt_indices load att).length = 1) ∧
    (load = false → 1 ≤ att → (attempt_indices load att).length = att.toNat) := by
  constructor
  · intro h
    unfold attempt_indices adjusted_attempts pyRange
    have hcond : (load ∨ att < 1) := by
      rcases h with h | h
      · exact Or.inl (by simp [h])
      · exact Or.inr h
    rw [if_pos hcond]
    simp
  · intro hl hatt
    unfold attempt_indices adjusted_attempts pyRange
    have hcond : ¬(load ∨ att < 1) := by
      intro hcon
      rcases hcon with hc | hc
      · rw [hl] at hc; exact absurd hc (by simp)
      · omega
    rw [if_neg hcond]
    simp

/-- Concrete check of C8: loading runs one attempt, a request below 1 runs one
attempt, and a request of 3 without loading runs 3 attempts. -/
theorem attempt_loop_count_witness :
    (attempt_indices true 5).length = 1 ∧
    (attempt_indices false 0).length = 1 ∧
    (attempt_indices false 3).length = (3 : ℤ).toNat :=
  ⟨(attempt_loop_count true 5).1 (Or.inl rfl),
   (attempt_loop_count false 0).1 (Or.inr (by decide)),
   (attempt_loop_count false 3).2 rfl (by decide)⟩

/-- One row of the data frame handed to `prepare_data`: the `emotion` column
entry and the integer vector that `numpy.fromstring(..., dtype=int, sep=' ')`
parses from the row's `pixels` string (main.py lines 226-229). -/
structure Row where
  emotion : ℤ
  pixels : List ℤ

/-- Embeds `numpy.reshape(image, (48, 48))` (main.py line 230): a row-major
reshape into 48 rows of 48 entries, raising `ValueError` unless the vector
has exactly `48 * 48 = 2304` entries. -/
def np_reshape_48x48 (l : List ℤ) : Except PyErr (List (List ℤ)) :=
  if l.length = 48 * 48 then .ok (chunkList 48 l)
  else .error (.valueError "cannot reshape array")

/-- Embeds the image loop of `prepare_data` (main.py lines 225-231): every
row's pixel vector reshaped to a 48 by 48 grid, kept in row order. -/
def prepare_images : List Row → Except PyErr (List (List (List ℤ)))
  | [] => .ok []
  | r :: rs => do
    let img ← np_reshape_48x48 r.pixels
    let rest ← prepare_images rs
    .ok (img :: rest)

/-- Embeds `prepare_data` (main.py lines 219-236): labels taken from the
`emotion` column (line 226), images reshaped to `(N, 48, 48)`, a singleton
channel dimension appended (line 233), and every pixel scaled into `[0, 1]`
by dividing by 255 (line 235, modelled in `ℚ`). -/
def prepare_data (data : List Row) :
    Except PyErr (List (List (List (List ℚ))) × List ℤ) := do
  let labels := data.map Row.emotion
  let imgs ← prepare_images data
  let scaled := imgs.map
    (fun img => img.map (fun row => row.map (fun v : ℤ => [(v : ℚ) / 255])))
  .ok (scaled, labels)

lemma prepare_images_ok (data : List Row)
    (h : ∀ r ∈ data, r.pixels.length = 2304) :
    prepare_images data = .ok (data.map (fun r => chunkList 48 r.pixels)) := by
  induction data with
  | nil => rfl
  | cons r rs ih =>
    have hr : r.pixels.length = 2304 := h r (List.mem_cons_self r rs)
    have hrs := ih (fun x hx => h x (List.mem_cons_of_mem r hx))
    simp only [prepare_images, np_reshape_48x48]
    rw [if_pos (by rw [hr])]
    rw [hrs]
    rfl

/-- C9: on a data frame whose every `pixels` entry parses to exactly 2304
integers in `[0, 255]`, `prepare_data` succeeds and returns images of shape
`(N, 48, 48, 1)` with every value in `[0, 1]`, and a label list of the same
length `N` taken from the `emotion` column. -/
theorem prepare_data_shape (data : List Row)
    (hlen : ∀ r ∈ data, r.pixels.length = 2304)
    (hval : ∀ r ∈ data, ∀ v ∈ r.pixels, 0 ≤ v ∧ v ≤ 255) :
    ∃ images labels, prepare_data data = .ok (images, labels) ∧
      images.length = data.length ∧ labels = data.map Row.emotion ∧
      labels.length = data.length ∧
      ∀ img ∈ images, img.length = 48 ∧
        ∀ row ∈ img, row.length = 48 ∧
          ∀ px ∈ row, px.length = 1 ∧
            ∀ v ∈ px, 0 ≤ v ∧ v ≤ 1 := by
  have h48 : (0 : ℕ) < 48 := by norm_num
  refine ⟨(data.map (fun r => chunkList 48 r.pixels)).map
      (fun img => img.map (fun row => row.map (fun v : ℤ => [(v : ℚ) / 255]))),
    data.map Row.emotion, ?_, ?_, rfl, ?_, ?_⟩
  · unfold prepare_data
    rw [prepare_images_ok data hlen]
    rfl
  · simp
  · simp
  · intro img himg
    obtain ⟨grid, hgrid, rfl⟩ := List.mem_map.mp himg
    obtain ⟨r, hrmem, rfl⟩ := List.mem_map.mp hgrid
    have hr : r.pixels.length = 2304 := hlen r hrmem
    have hdvd : 48 ∣ r.pixels.length := by rw [hr]; norm_num
    constructor
    · have := chunkList_length_mul h48 r.pixels hdvd
      rw [hr] at this
      simp only [List.length_map]
      omega
    · intro row hrow
      obtain ⟨orig, horig, rfl⟩ := List.mem_map.mp hrow
      constructor
      · rw [List.length_map]
        exact chunkList_mem_length h48 r.pixels hdvd orig horig
      · intro px hpx
        obtain ⟨v, hv, rfl⟩ := List.mem_map.mp hpx
        refine ⟨rfl, ?_⟩
        intro u hu
        have hu' : u = (v : ℚ) / 255 := by simpa using hu
        subst hu'
        have hvmem : v ∈ r.pixels := by
          rw [← chunkList_flatten h48 r.pixels]
          exact List.mem_flatten.mpr ⟨orig, horig, hv⟩
        obtain ⟨hv0, hv255⟩ := hval r hrmem v hvmem
        constructor
        · apply div_nonneg
          · exact_mod_cast hv0
          · norm_num
        · rw [div_le_one (by norm_num)]
          exact_mod_cast hv255

/-- Concrete check of C9 on a one-row data frame whose pixel vector is 2304
copies of the value 7. -/
theorem prepare_data_shape_witness :
    ∃ images labels,
      prepare_data [⟨3, List.replicate 2304 7⟩] = .ok (images, labels) ∧
      images.length = ([⟨3, List.replicate 2304 7⟩] : List Row).length ∧
      labels = ([⟨3, List.replicate 2304 7⟩] : List Row).map Row.emotion ∧
      labels.length = ([⟨3, List.replicate 2304 7⟩] : List Row).length ∧
      ∀ img ∈ images, img.length = 48 ∧
        ∀ row ∈ img, row.length = 48 ∧
          ∀ px ∈ row, px.length = 1 ∧
            ∀ v ∈ px, 0 ≤ v ∧ v ≤ 1 :=
  prepare_data_shape [⟨3, List.replicate 2304 7⟩]
    (by
      intro r hr
      rw [List.mem_singleton] at hr
      subst hr
      exact List.length_replicate 2304 7)
    (by
      intro r hr v hv
      rw [List.mem_singleton] at hr
      subst hr
      have hv7 : v = 7 := List.eq_of_mem_replicate hv
      subst hv7
      norm_num)

/-- Outcome of the model-resolution block at the top of each training attempt
(main.py lines 272-287): either the checkpoint was loaded into the model
(`loaded`) or a newly constructed network is used (`fresh`). -/
inductive ModelSource where
  | loaded
  | fresh
deriving DecidableEq

/-- Embeds a call `NeuralNetwork()` (main.py lines 280, 287 and 324):
`__init__` raises whatever building the layer stack raises; the remaining
initialisation of lines 91-94 — loss, optimizer, device placement — succeeds. -/
def NeuralNetwork_new : Except PyErr Unit :=
  match NeuralNetwork_init_layers with
  | .error e => .error e
  | .ok _ => .ok ()

/-- Embeds main.py lines 272-287. `fileExists` abstracts
`os.path.exists(f"{os.getcwd()}/Models/{name}.pt")` (line 275) and
`stateDictOk` abstracts whether `torch.load` followed by `load_state_dict`
(line 281) would succeed on the current architecture. Anything raised inside
the `try` of lines 278-283 is caught by the bare `except` of line 284; the
fallback construction `model = NeuralNetwork()` at line 287 runs outside
every handler. -/
def load_section (load fileExists stateDictOk : Bool) : Except PyErr ModelSource :=
  let no_model : Bool :=
    if load && fileExists then
      match NeuralNetwork_new with
      | .error _ => true
      | .ok _ => !stateDictOk
    else true
  if no_model then
    match NeuralNetwork_new with
    | .error e => .error e
    | .ok _ => .ok .fresh
  else .ok .loaded

/-- C6: best-effort loading does not hold in the code as written. With
`load = True`, whether or not the checkpoint file exists or its state dict
loads, the fallback `model = NeuralNetwork()` at main.py line 287 itself
raises `TypeError` — `define_layers` is called without its required `name`
argument — and that call sits outside every exception handler, so `main`
raises instead of using a newly constructed model. -/
theorem load_section_raises (fileExists stateDictOk : Bool) :
    load_section true fileExists stateDictOk =
      .error (.typeError "define_layers missing 1 required positional argument: name") := by
  cases fileExists <;> cases stateDictOk <;> rfl

/-- Effects of the comparison-and-replace block of `main`
(main.py lines 321-339): whether `torch.save` overwrote `Models/{name}.pt`
with the new model's state (line 339, the only write to that file), and
whether the attempt's TensorBoard run data `runs/Current` was instead removed
and the attempt abandoned (lines 331-333). -/
structure SaveOutcome where
  savedNewModel : Bool
  runDataDiscarded : Bool
deriving DecidableEq

/-- Embeds main.py lines 321-339. `fileExists` abstracts the existence check
on `Models/{name}.pt` (line 321). The `try` block of lines 323-326 starts
with `existing = NeuralNetwork()` (line 324), embedded by `NeuralNetwork_new`;
`stateDictOk` abstracts whether `torch.load` plus `load_state_dict`
(line 325) would then succeed on the current architecture, and
`existing_accuracy` abstracts what `test(existing, batch, dataloader)`
(line 326) would measure. Anything raised inside the block is caught by the
bare `except` at line 336, after which line 339 saves the new model. -/
def save_section (load fileExists stateDictOk : Bool)
    (existing_accuracy accuracy : ℚ) : SaveOutcome :=
  if !load && fileExists then
    match NeuralNetwork_new with
    | .error _ => ⟨true, false⟩
    | .ok _ =>
      if stateDictOk then
        if existing_accuracy ≥ accuracy then ⟨false, true⟩
        else ⟨true, false⟩
      else ⟨true, false⟩
  else ⟨true, false⟩

/-- C1: the best-scoring-model policy does not hold in the code as written.
The `try` block of main.py lines 323-326 begins with
`existing = NeuralNetwork()`, which always raises `TypeError` — the
`define_layers` arity bug of main.py line 90 — so the bare `except` at
line 336 always fires and line 339 saves the new model unconditionally:
even when the existing checkpoint's measured accuracy is greater than or
equal to the new one, the checkpoint is overwritten and the run data kept;
the accuracy comparison of lines 326-333 never executes (and `main` in fact
raises at line 287 before ever reaching this block). -/
theorem save_section_always_saves (stateDictOk : Bool)
    (existing_accuracy accuracy : ℚ) :
    save_section false true stateDictOk existing_accuracy accuracy
      = ⟨true, false⟩ := rfl

/-- Concrete check of C1's divergence: an existing accuracy of 2 against a
new accuracy of 1 still saves the new model and keeps the attempt's run
data. -/
theorem save_section_always_saves_witness :
    save_section false true true 2 1 = ⟨true, false⟩ :=
  save_section_always_saves true 2 1

/-- Observable actions `main` can perform after its opening guard
(main.py lines 256-363): loading the CSV data, constructing, training and
testing models, and creating, writing, removing or renaming files and
directories. -/
inductive MainEffect where
  | readDataCSV
  | constructModel
  | trainModel
  | testModel
  | writeFile (path : String)
  | makeDir (path : String)
  | removePath (path : String)
  | renamePath (src dst : String)
deriving DecidableEq

/-- Embeds the opening guard of `main` (main.py lines 253-255): the name
`Current` makes `main` print a message and return at once. -/
def main_returns_early (name : String) : Bool :=
  name = "Current"

/-- Effect trace of `main` around its opening guard: when the guard fires
nothing further runs; otherwise `main` first reads `Data.csv` (line 259) and
then performs the rest of its work, abstracted as `rest`. -/
def main_guarded_effects (name : String) (rest : List MainEffect) : List MainEffect :=
  if main_returns_early name then [] else MainEffect.readDataCSV :: rest

/-- C10: invoking `main` with the name `Current` returns immediately after
the printed message — whatever the remainder of `main` would have done (load
data, build, train or test a model, touch any file or directory), none of it
happens. -/
theorem main_current_early_return (rest : List MainEffect) :
    main_returns_early "Current" = true ∧
    main_guarded_effects "Current" rest = [] :=
  ⟨rfl, rfl⟩

/-- Concrete check of C6 with no checkpoint file present. -/
theorem load_section_raises_witness :
    load_section true false false =
      .error (.typeError "define_layers missing 1 required positional argument: name") :=
  load_section_raises false false

/-- Concrete check of C10 for one possible remainder trace. -/
theorem main_current_early_return_witness :
    main_returns_early "Current" = true ∧
    main_guarded_effects "Current" [MainEffect.readDataCSV] = [] :=
  main_current_early_return [MainEffect.readDataCSV]
